import Mathlib

/-!
Verification of `assets/fonts/generate_font_header.py` (MISRC repository).

The script converts a binary font file into a C header containing a
hex byte array.  We embed the script shallowly:

* bytes are `Fin 256` (Python's `bytes` elements are 0..255);
* the filesystem is an association list from paths to file objects,
  reads and writes are explicit state passing;
* `embed_font` mirrors the Python function `embed_font` line by line;
* the `__main__` block's sequential processing is `run_specs`.
-/

/-- A file on the modelled filesystem: binary content (a byte list) or
text content (a string, as written by `open(path, 'w')`). -/
inductive FSObj where
  | bin (bytes : List (Fin 256))
  | txt (text : String)
deriving DecidableEq

/-- The bytes obtained by reading a file in binary mode (`open(path, 'rb')`).
A text file reads back as the bytes of its UTF-8 encoding. -/
def FSObj.readBytes : FSObj → List (Fin 256)
  | .bin bs => bs
  | .txt s => s.toUTF8.toList.map (fun b => ⟨b.toNat % 256, Nat.mod_lt _ (by decide)⟩)

/-- The modelled filesystem: an association list from paths to files.
Earlier entries shadow later ones. -/
abbrev FS := List (String × FSObj)

/-- Path lookup (`os.path.exists` + `open(path, 'rb').read()`). -/
def FS.lookup : FS → String → Option FSObj
  | [], _ => none
  | (q, o) :: rest, p => if p = q then some o else FS.lookup rest p

/-- Writing a file (`open(path, 'w').write(...)`): the new entry shadows
any previous content at the same path. -/
def FS.write (fs : FS) (p : String) (o : FSObj) : FS := (p, o) :: fs

/-- The uppercase hex digit character for `n < 16`, as produced by
Python's `format(b, '02X')`. -/
def hexDigitUpper (n : Nat) : Char :=
  if n < 10 then Char.ofNat (Char.toNat '0' + n) else Char.ofNat (Char.toNat 'A' + n - 10)

/-- Python's `f'0x{b:02X}'` for a byte `b`: `0x` followed by exactly two
uppercase hex digits, high nibble first. -/
def byteToHex (b : Fin 256) : String :=
  "0x" ++ String.mk [hexDigitUpper (b.val / 16), hexDigitUpper (b.val % 16)]

/-- Fuel-driven worker for `chunks16`; the fuel dominates the list length
so the recursion is structural and kernel-reducible. -/
def chunks16Go {α : Type} : Nat → List α → List (List α)
  | _, [] => []
  | 0, _ :: _ => []
  | Nat.succ n, x :: xs => ((x :: xs).take 16) :: chunks16Go n ((x :: xs).drop 16)

/-- The row chunks of the byte list, 16 bytes per row, mirroring the loop
`for i in range(0, len(data), 16): chunk = data[i:i+16]`. -/
def chunks16 {α : Type} (l : List α) : List (List α) := chunks16Go l.length l

/-- The hexadecimal entries of one row: `f'0x{b:02X}' for b in chunk`. -/
def rowEntries (chunk : List (Fin 256)) : List String := chunk.map byteToHex

/-- One generated row line: `f'    {hex_str},'` where `hex_str` joins the
entries with `', '`. -/
def rowLine (chunk : List (Fin 256)) : String :=
  "    " ++ String.intercalate ", " (rowEntries chunk) ++ ","

/-- The fixed line `lines` list built by `embed_font` before joining:
two comments, include-guard opening, array declaration, the rows,
closing brace, size constant and guard close. -/
def embedLines (data : List (Fin 256)) (var_name font_name : String) : List String :=
  let header_guard := var_name.toUpper ++ "_H"
  [ "// Auto-generated font data - " ++ toString data.length ++ " bytes",
    "// " ++ font_name ++ " font from google fonts",
    "#ifndef " ++ header_guard,
    "#define " ++ header_guard,
    "",
    "static const unsigned char " ++ var_name ++ "[] = \x7b" ]
  ++ (chunks16 data).map rowLine
  ++ [ "\x7d;",
       "",
       "static const unsigned int " ++ var_name ++ "_size = " ++ toString data.length ++ ";",
       "",
       "#endif // " ++ header_guard,
       "" ]

/-- The complete generated text: `'\n'.join(lines)`. -/
def outputText (data : List (Fin 256)) (var_name font_name : String) : String :=
  String.intercalate "\n" (embedLines data var_name font_name)

/-- Result of one `embed_font` call: the returned flag, the filesystem
after the call, and the lines printed to stdout. -/
structure EmbedResult where
  ok : Bool
  fs : FS
  printed : List String
deriving DecidableEq

/-- The Python function `embed_font(font_path, output_path, var_name, font_name)`:
missing source → diagnostic and `False`; otherwise read the bytes, render
the header text, write it to `output_path` and return `True`. -/
def embed_font (fs : FS) (font_path output_path var_name font_name : String) :
    EmbedResult :=
  match FS.lookup fs font_path with
  | none => ⟨false, fs, ["Error: Font file not found: " ++ font_path]⟩
  | some obj =>
    let data := obj.readBytes
    ⟨true,
     FS.write fs output_path (FSObj.txt (outputText data var_name font_name)),
     ["Generated " ++ output_path ++ ": " ++ toString data.length ++ " bytes embedded"]⟩

/-- One conversion configuration: source path, destination path, symbol
name and display label. -/
structure EmbedSpec where
  font_path : String
  output_path : String
  var_name : String
  font_name : String
deriving DecidableEq

/-- Sequential processing of specs as in the `__main__` block: each call
runs to completion and the next starts regardless of the previous flag. -/
def run_specs : FS → List EmbedSpec → FS × List Bool
  | fs, [] => (fs, [])
  | fs, s :: rest =>
    let r := embed_font fs s.font_path s.output_path s.var_name s.font_name
    let r2 := run_specs r.fs rest
    (r2.1, r.ok :: r2.2)

/-- First spec hardcoded in `__main__`: the Inter font. -/
def inter_spec : EmbedSpec :=
  ⟨"assets/fonts/static/Inter_18pt-Regular.ttf", "misrc_gui/inter_font_data.h",
   "inter_font_data", "Inter"⟩

/-- Second spec hardcoded in `__main__`: the Space Mono font. -/
def space_mono_spec : EmbedSpec :=
  ⟨"assets/fonts/SpaceMono-Regular.ttf", "misrc_gui/space_mono_font_data.h",
   "space_mono_font_data", "Space Mono"⟩

/-- The two specs processed by `__main__`, in order. -/
def main_specs : List EmbedSpec := [inter_spec, space_mono_spec]

/-- Spec-side decoder for one hex entry of the array literal: `0x`
followed by hex digits (digits `0`-`9`, uppercase `A`-`F`). -/
def hexVal (c : Char) : Option Nat :=
  if '0' ≤ c ∧ c ≤ '9' then some (c.toNat - Char.toNat '0')
  else if 'A' ≤ c ∧ c ≤ 'F' then some (c.toNat - Char.toNat 'A' + 10)
  else none

/-- Spec-side parser for one array-literal entry `0xHH` back to a byte. -/
def parseHexEntry (s : String) : Option (Fin 256) :=
  match s.toList with
  | ['0', 'x', h, l] =>
    match hexVal h, hexVal l with
    | some hv, some lv =>
      if hlt : hv * 16 + lv < 256 then some ⟨hv * 16 + lv, hlt⟩ else none
    | _, _ => none
  | _ => none

/-- Spec-side parser for the entry list, in order; fails if any entry fails. -/
def parseEntries : List String → Option (List (Fin 256))
  | [] => some []
  | s :: rest =>
    match parseHexEntry s, parseEntries rest with
    | some b, some bs => some (b :: bs)
    | _, _ => none

/-- All hexadecimal entries of the generated array literal, in row order. -/
def arrayEntries (data : List (Fin 256)) : List String :=
  ((chunks16 data).map rowEntries).flatten

/-- Checker for the format `0x[0-9A-F]{2}` from the spec. -/
def isHexEntry (s : String) : Bool :=
  match s.toList with
  | ['0', 'x', h, l] =>
    (decide (('0' ≤ h ∧ h ≤ '9') ∨ ('A' ≤ h ∧ h ≤ 'F'))) &&
    (decide (('0' ≤ l ∧ l ≤ '9') ∨ ('A' ≤ l ∧ l ≤ 'F')))
  | _ => false

example : byteToHex ⟨0xAB, by decide⟩ = "0xAB" := by decide
example : chunks16 [1, 2, 3] = [[1, 2, 3]] := by decide
example : (chunks16 (List.range 17)).map List.length = [16, 1] := by decide
example : parseHexEntry "0xAB" = some ⟨0xAB, by decide⟩ := by decide

theorem chunks16Go_nil {α : Type} (n : Nat) : chunks16Go n ([] : List α) = [] := by
  cases n <;> rfl

theorem chunks16Go_fuel {α : Type} :
    ∀ (n m : Nat) (l : List α), l.length ≤ n → l.length ≤ m →
      chunks16Go n l = chunks16Go m l := by
  intro n
  induction n with
  | zero =>
    intro m l hn _
    have hl : l = [] := List.eq_nil_of_length_eq_zero (Nat.le_zero.mp hn)
    subst hl
    simp [chunks16Go_nil]
  | succ n ih =>
    intro m l hn hm
    cases l with
    | nil => simp [chunks16Go_nil]
    | cons x xs =>
      cases m with
      | zero => simp at hm
      | succ m =>
        simp only [chunks16Go]
        congr 1
        apply ih
        · simp only [List.length_drop, List.length_cons] at *
          omega
        · simp only [List.length_drop, List.length_cons] at *
          omega

theorem chunks16_cons {α : Type} (l : List α) (h : l ≠ []) :
    chunks16 l = l.take 16 :: chunks16 (l.drop 16) := by
  cases l with
  | nil => exact absurd rfl h
  | cons x xs =>
    show chunks16Go (x :: xs).length (x :: xs) = _
    simp only [List.length_cons, chunks16Go]
    congr 1
    apply chunks16Go_fuel
    · simp only [List.length_drop, List.length_cons]
      omega
    · exact le_rfl

theorem chunks16Go_flatten {α : Type} :
    ∀ (n : Nat) (l : List α), l.length ≤ n → (chunks16Go n l).flatten = l := by
  intro n
  induction n with
  | zero =>
    intro l h
    have hl : l = [] := List.eq_nil_of_length_eq_zero (Nat.le_zero.mp h)
    subst hl
    rfl
  | succ n ih =>
    intro l h
    cases l with
    | nil => rfl
    | cons x xs =>
      simp only [chunks16Go, List.flatten_cons]
      rw [ih ((x :: xs).drop 16) (by simp only [List.length_drop, List.length_cons] at *; omega)]
      exact List.take_append_drop 16 (x :: xs)

theorem chunks16_flatten {α : Type} (l : List α) : (chunks16 l).flatten = l :=
  chunks16Go_flatten l.length l le_rfl

theorem arrayEntries_eq (data : List (Fin 256)) :
    arrayEntries data = data.map byteToHex := by
  unfold arrayEntries rowEntries
  rw [← List.map_flatten, chunks16_flatten]

set_option maxRecDepth 4096 in
theorem parse_byteToHex : ∀ b : Fin 256, parseHexEntry (byteToHex b) = some b := by decide

set_option maxRecDepth 4096 in
theorem isHexEntry_byteToHex : ∀ b : Fin 256, isHexEntry (byteToHex b) = true := by decide

/-- C1: parsing the hexadecimal entries of the generated array literal
back into bytes, in order, reproduces the input byte sequence exactly. -/
theorem roundtrip_entries (data : List (Fin 256)) :
    parseEntries (arrayEntries data) = some data := by
  rw [arrayEntries_eq]
  induction data with
  | nil => rfl
  | cons b bs ih => simp [parseEntries, parse_byteToHex, ih]

/-- C2: for input of length N the array literal has exactly N entries,
each matching `0x[0-9A-F]\x7b2\x7d`. -/
theorem entries_count_format (data : List (Fin 256)) :
    (arrayEntries data).length = data.length ∧
    ∀ s ∈ arrayEntries data, isHexEntry s = true := by
  rw [arrayEntries_eq]
  refine ⟨by simp, ?_⟩
  intro s hs
  obtain ⟨b, _, rfl⟩ := List.mem_map.mp hs
  exact isHexEntry_byteToHex b

theorem chunks16Go_length_facts {α : Type} :
    ∀ (n : Nat) (l : List α), l.length ≤ n → l ≠ [] →
      (∀ c ∈ (chunks16Go n l).dropLast, c.length = 16) ∧
      (chunks16Go n l).getLast?.map List.length =
        some (if l.length % 16 = 0 then 16 else l.length % 16) := by
  intro n
  induction n with
  | zero =>
    intro l hn hne
    exact absurd (List.eq_nil_of_length_eq_zero (Nat.le_zero.mp hn)) hne
  | succ n ih =>
    intro l hn hne
    cases l with
    | nil => exact absurd rfl hne
    | cons x xs =>
      simp only [chunks16Go]
      by_cases hd : (x :: xs).drop 16 = []
      · rw [hd, chunks16Go_nil]
        have h16 : (x :: xs).length ≤ 16 := List.drop_eq_nil_iff.mp hd
        refine ⟨?_, ?_⟩
        · intro c hc
          simp at hc
        · have hpos : 0 < (x :: xs).length := by simp
          simp only [List.getLast?_singleton, Option.map, List.length_take]
          split <;> [skip; skip] <;> congr 1 <;> omega
      · have h16 : 16 < (x :: xs).length := by
          rcases Nat.lt_or_ge 16 (x :: xs).length with hlt | hge
          · exact hlt
          · exact absurd (List.drop_eq_nil_of_le hge) hd
        have hlen : ((x :: xs).drop 16).length ≤ n := by
          simp only [List.length_drop, List.length_cons] at *
          omega
        obtain ⟨hall, hlast⟩ := ih ((x :: xs).drop 16) hlen hd
        obtain ⟨r, rs, hr⟩ : ∃ r rs, chunks16Go n ((x :: xs).drop 16) = r :: rs := by
          rcases hch : chunks16Go n ((x :: xs).drop 16) with _ | ⟨r, rs⟩
          · rw [hch] at hlast
            simp at hlast
          · exact ⟨r, rs, rfl⟩
        rw [hr] at hall hlast ⊢
        refine ⟨?_, ?_⟩
        · intro c hc
          rw [List.dropLast_cons₂] at hc
          rcases List.mem_cons.mp hc with rfl | hc2
          · rw [List.length_take]
            simp only [List.length_cons] at h16 ⊢
            omega
          · exact hall c hc2
        · rw [List.getLast?_cons_cons, hlast]
          have key : ((x :: xs).drop 16).length % 16 = (x :: xs).length % 16 := by
            simp only [List.length_drop, List.length_cons] at h16 ⊢
            omega
          rw [key]

theorem chunks16_length_facts {α : Type} (l : List α) (h : l ≠ []) :
    (∀ c ∈ (chunks16 l).dropLast, c.length = 16) ∧
    (chunks16 l).getLast?.map List.length =
      some (if l.length % 16 = 0 then 16 else l.length % 16) :=
  chunks16Go_length_facts l.length l le_rfl h

/-- C3: for nonempty input, every generated row except possibly the last
holds exactly 16 entries, and the last row holds `N mod 16` entries
(16 when N is a multiple of 16). -/
theorem row_lengths (data : List (Fin 256)) (h : data ≠ []) :
    (∀ c ∈ (chunks16 data).dropLast, (rowEntries c).length = 16) ∧
    (chunks16 data).getLast?.map (fun c => (rowEntries c).length) =
      some (if data.length % 16 = 0 then 16 else data.length % 16) := by
  obtain ⟨h1, h2⟩ := chunks16_length_facts data h
  refine ⟨?_, ?_⟩
  · intro c hc
    rw [rowEntries, List.length_map]
    exact h1 c hc
  · rw [← h2]
    cases (chunks16 data).getLast? <;> simp [rowEntries]

/-- The 17-byte input `0x00 .. 0x10` from the spec's scenario. -/
def data17 : List (Fin 256) :=
  (List.range 17).map (fun i => ⟨i % 256, Nat.mod_lt _ (by decide)⟩)

/-- Witness for `row_lengths` at the 17-byte input: 2 rows, of 16 and 1
entries. -/
theorem row_lengths_witness :
    data17 ≠ [] ∧
    ((∀ c ∈ (chunks16 data17).dropLast, (rowEntries c).length = 16) ∧
     (chunks16 data17).getLast?.map (fun c => (rowEntries c).length) =
       some (if data17.length % 16 = 0 then 16 else data17.length % 16)) :=
  ⟨by decide, row_lengths data17 (by decide)⟩

/-- C4: the generated output declares the unsigned size constant named
`var_name ++ "_size"` with declared value exactly the input byte count,
on the line right after the blank line following the array's close. -/
theorem size_constant_line (data : List (Fin 256)) (v f : String) :
    (embedLines data v f)[8 + (chunks16 data).length]? =
      some ("static const unsigned int " ++ v ++ "_size = " ++ toString data.length ++ ";") := by
  simp only [embedLines]
  rw [List.getElem?_append_right
    (by simp only [List.length_append, List.length_map, List.length_cons, List.length_nil]; omega)]
  simp only [List.length_append, List.length_map, List.length_cons, List.length_nil]
  rw [show 8 + (chunks16 data).length - (6 + (chunks16 data).length) = 2 from by omega]
  rfl

/-- C5: the `#ifndef`, `#define` and `#endif` lines of the generated
output all carry the same guard token, the uppercased `var_name`
concatenated with `_H`. -/
theorem header_guard_lines (data : List (Fin 256)) (v f : String) :
    (embedLines data v f)[2]? = some ("#ifndef " ++ (v.toUpper ++ "_H")) ∧
    (embedLines data v f)[3]? = some ("#define " ++ (v.toUpper ++ "_H")) ∧
    (embedLines data v f)[10 + (chunks16 data).length]? =
      some ("#endif // " ++ (v.toUpper ++ "_H")) := by
  refine ⟨rfl, rfl, ?_⟩
  simp only [embedLines]
  rw [List.getElem?_append_right
    (by simp only [List.length_append, List.length_map, List.length_cons, List.length_nil]; omega)]
  simp only [List.length_append, List.length_map, List.length_cons, List.length_nil]
  rw [show 10 + (chunks16 data).length - (6 + (chunks16 data).length) = 4 from by omega]
  rfl

theorem embed_font_none (fs : FS) (p o v f : String) (h : FS.lookup fs p = none) :
    embed_font fs p o v f = ⟨false, fs, ["Error: Font file not found: " ++ p]⟩ := by
  unfold embed_font
  rw [h]

theorem embed_font_some (fs : FS) (p o v f : String) (obj : FSObj)
    (h : FS.lookup fs p = some obj) :
    embed_font fs p o v f =
      ⟨true, FS.write fs o (FSObj.txt (outputText obj.readBytes v f)),
       ["Generated " ++ o ++ ": " ++ toString obj.readBytes.length ++ " bytes embedded"]⟩ := by
  unfold embed_font
  rw [h]

theorem lookup_write_self (fs : FS) (p : String) (x : FSObj) :
    FS.lookup (FS.write fs p x) p = some x := by
  simp [FS.write, FS.lookup]

/-- C6: a missing source file makes `embed_font` return `false` and print
the diagnostic, with the filesystem left exactly as it was (no output
file created or modified); the function is total, so no exception
escapes. -/
theorem missing_source (fs : FS) (p o v f : String) (h : FS.lookup fs p = none) :
    embed_font fs p o v f = ⟨false, fs, ["Error: Font file not found: " ++ p]⟩ :=
  embed_font_none fs p o v f h

/-- Witness for `missing_source` on the empty filesystem and the script's
first hardcoded path. -/
theorem missing_source_witness :
    FS.lookup [] "assets/fonts/static/Inter_18pt-Regular.ttf" = none ∧
    embed_font [] "assets/fonts/static/Inter_18pt-Regular.ttf" "misrc_gui/inter_font_data.h"
        "inter_font_data" "Inter" =
      ⟨false, [],
       ["Error: Font file not found: " ++ "assets/fonts/static/Inter_18pt-Regular.ttf"]⟩ :=
  ⟨rfl, missing_source [] "assets/fonts/static/Inter_18pt-Regular.ttf"
    "misrc_gui/inter_font_data.h" "inter_font_data" "Inter" rfl⟩

/-- C7: on an empty (0-byte) input, `embed_font` succeeds and writes a
header whose array body has zero rows (the opening-brace line is
immediately followed by the closing-brace line) and whose size constant
is 0, the declaration remaining well formed. -/
theorem empty_input_output (fs : FS) (p o v f : String)
    (h : FS.lookup fs p = some (FSObj.bin [])) :
    (embed_font fs p o v f).ok = true ∧
    FS.lookup (embed_font fs p o v f).fs o = some (FSObj.txt (String.intercalate "\n"
      [ "// Auto-generated font data - 0 bytes",
        "// " ++ f ++ " font from google fonts",
        "#ifndef " ++ (v.toUpper ++ "_H"),
        "#define " ++ (v.toUpper ++ "_H"),
        "",
        "static const unsigned char " ++ v ++ "[] = \x7b",
        "\x7d;",
        "",
        "static const unsigned int " ++ v ++ "_size = " ++ "0" ++ ";",
        "",
        "#endif // " ++ (v.toUpper ++ "_H"),
        "" ])) := by
  rw [embed_font_some fs p o v f (FSObj.bin []) h]
  refine ⟨rfl, ?_⟩
  rw [lookup_write_self]
  rfl

/-- Witness for `empty_input_output` on a filesystem holding one empty
font file. -/
theorem empty_input_witness :
    FS.lookup [("empty.ttf", FSObj.bin [])] "empty.ttf" = some (FSObj.bin []) ∧
    ((embed_font [("empty.ttf", FSObj.bin [])] "empty.ttf" "out.h" "font_data" "Font").ok = true ∧
     FS.lookup (embed_font [("empty.ttf", FSObj.bin [])] "empty.ttf" "out.h" "font_data"
         "Font").fs "out.h" = some (FSObj.txt (String.intercalate "\n"
       [ "// Auto-generated font data - 0 bytes",
         "// " ++ "Font" ++ " font from google fonts",
         "#ifndef " ++ ("font_data".toUpper ++ "_H"),
         "#define " ++ ("font_data".toUpper ++ "_H"),
         "",
         "static const unsigned char " ++ "font_data" ++ "[] = \x7b",
         "\x7d;",
         "",
         "static const unsigned int " ++ "font_data" ++ "_size = " ++ "0" ++ ";",
         "",
         "#endif // " ++ ("font_data".toUpper ++ "_H"),
         "" ]))) :=
  ⟨rfl, empty_input_output [("empty.ttf", FSObj.bin [])] "empty.ttf" "out.h" "font_data"
    "Font" rfl⟩

/-- C8: on success `embed_font` writes to the output path — overwriting
whatever was there — exactly the text consisting, in order, of the byte
count comment, the font label comment, the `#ifndef` and `#define`
lines, a blank line, the array opening, the byte rows, the closing
brace, a blank line, the size constant, a blank line and the `#endif`
line, with nothing further. -/
theorem success_write (fs : FS) (p o v f : String) (data : List (Fin 256))
    (h : FS.lookup fs p = some (FSObj.bin data)) :
    (embed_font fs p o v f).ok = true ∧
    FS.lookup (embed_font fs p o v f).fs o = some (FSObj.txt (String.intercalate "\n"
      ([ "// Auto-generated font data - " ++ toString data.length ++ " bytes",
         "// " ++ f ++ " font from google fonts",
         "#ifndef " ++ (v.toUpper ++ "_H"),
         "#define " ++ (v.toUpper ++ "_H"),
         "",
         "static const unsigned char " ++ v ++ "[] = \x7b" ]
       ++ (chunks16 data).map rowLine
       ++ [ "\x7d;",
            "",
            "static const unsigned int " ++ v ++ "_size = " ++ toString data.length ++ ";",
            "",
            "#endif // " ++ (v.toUpper ++ "_H"),
            "" ]))) := by
  rw [embed_font_some fs p o v f (FSObj.bin data) h]
  refine ⟨rfl, ?_⟩
  rw [lookup_write_self]
  rfl

/-- A one-byte input used by the concrete witnesses. -/
def dataW : List (Fin 256) := [⟨65, by decide⟩]

/-- Witness for `success_write`: the output path already holds other
content, which the call overwrites. -/
theorem success_write_witness :
    FS.lookup [("in.ttf", FSObj.bin dataW), ("out.h", FSObj.txt "old content")] "in.ttf" =
      some (FSObj.bin dataW) ∧
    ((embed_font [("in.ttf", FSObj.bin dataW), ("out.h", FSObj.txt "old content")]
        "in.ttf" "out.h" "font_data" "Font").ok = true ∧
     FS.lookup (embed_font [("in.ttf", FSObj.bin dataW), ("out.h", FSObj.txt "old content")]
         "in.ttf" "out.h" "font_data" "Font").fs "out.h" =
       some (FSObj.txt (String.intercalate "\n"
         ([ "// Auto-generated font data - " ++ toString dataW.length ++ " bytes",
            "// " ++ "Font" ++ " font from google fonts",
            "#ifndef " ++ ("font_data".toUpper ++ "_H"),
            "#define " ++ ("font_data".toUpper ++ "_H"),
            "",
            "static const unsigned char " ++ "font_data" ++ "[] = \x7b" ]
          ++ (chunks16 dataW).map rowLine
          ++ [ "\x7d;",
               "",
               "static const unsigned int " ++ "font_data" ++ "_size = " ++
                 toString dataW.length ++ ";",
               "",
               "#endif // " ++ ("font_data".toUpper ++ "_H"),
               "" ])))) :=
  ⟨rfl, success_write [("in.ttf", FSObj.bin dataW), ("out.h", FSObj.txt "old content")]
    "in.ttf" "out.h" "font_data" "Font" dataW rfl⟩

/-- C9: when two specs are processed in order and the first one's source
file is missing, processing does not halt: the second `embed_font` call
still runs, on the filesystem the failed first call left unchanged. -/
theorem sequential_specs (fs : FS) (s1 s2 : EmbedSpec)
    (h : FS.lookup fs s1.font_path = none) :
    run_specs fs [s1, s2] =
      ((embed_font fs s2.font_path s2.output_path s2.var_name s2.font_name).fs,
       [false, (embed_font fs s2.font_path s2.output_path s2.var_name s2.font_name).ok]) := by
  simp only [run_specs]
  rw [embed_font_none fs s1.font_path s1.output_path s1.var_name s1.font_name h]

/-- Witness for `sequential_specs`, with the two hardcoded specs of the
script's entry block: the Inter font file is absent, the Space Mono file
is present. -/
theorem sequential_specs_witness :
    FS.lookup [("assets/fonts/SpaceMono-Regular.ttf", FSObj.bin dataW)]
      inter_spec.font_path = none ∧
    run_specs [("assets/fonts/SpaceMono-Regular.ttf", FSObj.bin dataW)]
        [inter_spec, space_mono_spec] =
      ((embed_font [("assets/fonts/SpaceMono-Regular.ttf", FSObj.bin dataW)]
          space_mono_spec.font_path space_mono_spec.output_path
          space_mono_spec.var_name space_mono_spec.font_name).fs,
       [false,
        (embed_font [("assets/fonts/SpaceMono-Regular.ttf", FSObj.bin dataW)]
          space_mono_spec.font_path space_mono_spec.output_path
          space_mono_spec.var_name space_mono_spec.font_name).ok]) :=
  ⟨by decide, sequential_specs [("assets/fonts/SpaceMono-Regular.ttf", FSObj.bin dataW)]
    inter_spec space_mono_spec (by decide)⟩

/-- C10: determinism: the written text depends only on the input bytes,
`var_name` and `font_name` — two calls from different filesystem states
and paths but with equal bytes write identical texts. -/
theorem deterministic_output (fs1 fs2 : FS) (p1 p2 o1 o2 v f : String)
    (data : List (Fin 256))
    (h1 : FS.lookup fs1 p1 = some (FSObj.bin data))
    (h2 : FS.lookup fs2 p2 = some (FSObj.bin data)) :
    FS.lookup (embed_font fs1 p1 o1 v f).fs o1 =
      FS.lookup (embed_font fs2 p2 o2 v f).fs o2 ∧
    FS.lookup (embed_font fs1 p1 o1 v f).fs o1 =
      some (FSObj.txt (outputText data v f)) := by
  rw [embed_font_some fs1 p1 o1 v f (FSObj.bin data) h1,
    embed_font_some fs2 p2 o2 v f (FSObj.bin data) h2]
  rw [lookup_write_self, lookup_write_self]
  exact ⟨rfl, rfl⟩

/-- Witness for `deterministic_output`: two different filesystems and
paths holding the same single byte. -/
theorem deterministic_output_witness :
    FS.lookup [("a.ttf", FSObj.bin dataW)] "a.ttf" = some (FSObj.bin dataW) ∧
    FS.lookup [("x.bin", FSObj.txt "noise"), ("b.ttf", FSObj.bin dataW)] "b.ttf" =
      some (FSObj.bin dataW) ∧
    (FS.lookup (embed_font [("a.ttf", FSObj.bin dataW)] "a.ttf" "o1.h" "v" "F").fs "o1.h" =
       FS.lookup (embed_font [("x.bin", FSObj.txt "noise"), ("b.ttf", FSObj.bin dataW)]
         "b.ttf" "o2.h" "v" "F").fs "o2.h" ∧
     FS.lookup (embed_font [("a.ttf", FSObj.bin dataW)] "a.ttf" "o1.h" "v" "F").fs "o1.h" =
       some (FSObj.txt (outputText dataW "v" "F"))) :=
  ⟨by decide, by decide,
   deterministic_output [("a.ttf", FSObj.bin dataW)]
     [("x.bin", FSObj.txt "noise"), ("b.ttf", FSObj.bin dataW)]
     "a.ttf" "b.ttf" "o1.h" "o2.h" "v" "F" dataW (by decide) (by decide)⟩
